import Mathlib

/-!
Verification development for the helium-topography batch processing job
(`batch_processing.py`).  Numeric values are modelled over `ℚ`; the external
geospatial libraries (haversine, h3, rasterio) are treated as oracles, passed
in as function parameters, exactly as the script treats them as third-party
capabilities.
-/

namespace BatchProcessing

/-- A latitude/longitude pair, rationals standing in for Python floats. -/
abbrev Coord := ℚ × ℚ

/-- External geospatial operations used by `generate_stats`:
`haversine` (km), `get_bearing`, `inverse_haversine` and `np.sqrt`.
They come from third-party libraries, so the model takes them as an oracle. -/
structure Geo where
  hav : Coord → Coord → ℚ
  bearing : ℚ → ℚ → ℚ → ℚ → ℚ
  invHav : Coord → ℚ → ℚ → Coord
  sqrt : ℚ → ℚ

/-- Outcome of one iteration of the Monte Carlo sampling loop in
`generate_stats`: the three `continue` branches and the candidate case. -/
inductive DrawOutcome where
  | discardClose
  | discardFarRadius
  | discardNegRadicand
  | candidate (pt : Coord)
deriving DecidableEq

/-- One iteration of the `for i in range(N)` body of `generate_stats`
(batch_processing.py lines 97-133).  `draw` is the triple
`np.random.permutation(len(witness_coords))[:3]` (the third index is unpacked
but never used by the body, mirrored here); indices produced by the
permutation are always in range, so `getD` coincides with plain indexing. -/
def mcStep (geo : Geo) (witnessCoords : List Coord) (evalMean : List ℚ)
    (assertedLocation : Coord) (draw : ℕ × ℕ × ℕ) : DrawOutcome :=
  let idx1 := draw.1
  let idx2 := draw.2.1
  let c1 := witnessCoords.getD idx1 (0, 0)
  let c2 := witnessCoords.getD idx2 (0, 0)
  let u := geo.hav c1 c2
  if u ≤ 0.05 then DrawOutcome.discardClose
  else
    let r1 := evalMean.getD idx1 0
    let r2 := evalMean.getD idx2 0
    if r1 > 50 ∨ r2 > 50 then DrawOutcome.discardFarRadius
    else
      let xp := (r1 ^ 2 - r2 ^ 2 + u ^ 2) / (2 * u)
      if r1 ^ 2 - xp ^ 2 < 0 then DrawOutcome.discardNegRadicand
      else
        let yp1 := geo.sqrt (r1 ^ 2 - xp ^ 2)
        let yp2 := -yp1
        let phi1 := geo.bearing c1.1 c1.2 (yp1 + c1.1) (xp + c1.2)
        let phi2 := geo.bearing c1.1 c1.2 (yp2 + c1.1) (xp + c1.2)
        let pt1 := geo.invHav c1 r1 phi1
        let pt2 := geo.invHav c1 r1 phi2
        if geo.hav assertedLocation pt1 < geo.hav assertedLocation pt2 then
          DrawOutcome.candidate pt1
        else
          DrawOutcome.candidate pt2

/-- `N = 1000`, the number of Monte Carlo attempts in `generate_stats`. -/
def mcN : ℕ := 1000

/-- The whole sampling loop.  Python's `for i in range(N)` executes the body
exactly `N` times: the `i -= 1` statement in the far-radius branch rebinds the
local name only and cannot affect the `range` iterator, so every iteration
consumes exactly one draw from the random stream `draws`. -/
def mcOutcomes (geo : Geo) (witnessCoords : List Coord) (evalMean : List ℚ)
    (assertedLocation : Coord) (draws : ℕ → ℕ × ℕ × ℕ) : List DrawOutcome :=
  (List.range mcN).map
    (fun i => mcStep geo witnessCoords evalMean assertedLocation (draws i))

/-- `predicted_locations`: the candidate points appended by the loop. -/
def getCandidate : DrawOutcome → Option Coord
  | DrawOutcome.candidate pt => some pt
  | _ => none

def predictedLocations (geo : Geo) (witnessCoords : List Coord) (evalMean : List ℚ)
    (assertedLocation : Coord) (draws : ℕ → ℕ × ℕ × ℕ) : List Coord :=
  (mcOutcomes geo witnessCoords evalMean assertedLocation draws).filterMap getCandidate

def isCandidate : DrawOutcome → Bool
  | DrawOutcome.candidate _ => true
  | _ => false

def isClose : DrawOutcome → Bool
  | DrawOutcome.discardClose => true
  | _ => false

def isFar : DrawOutcome → Bool
  | DrawOutcome.discardFarRadius => true
  | _ => false

def isRad : DrawOutcome → Bool
  | DrawOutcome.discardNegRadicand => true
  | _ => false

/-- Every iteration of the loop produces exactly one of the four outcomes. -/
theorem countP_outcome_partition (l : List DrawOutcome) :
    l.countP isCandidate + l.countP isClose + l.countP isFar + l.countP isRad
      = l.length := by
  induction l with
  | nil => rfl
  | cons o t ih =>
    cases o <;>
      simp [List.countP_cons, isCandidate, isClose, isFar, isRad] <;>
      omega

theorem length_filterMap_getCandidate (l : List DrawOutcome) :
    (l.filterMap getCandidate).length = l.countP isCandidate := by
  induction l with
  | nil => rfl
  | cons o t ih =>
    cases o <;>
      simp [List.filterMap_cons, getCandidate, isCandidate, List.countP_cons, ih]

theorem mcOutcomes_length (geo : Geo) (w : List Coord) (e : List ℚ) (a : Coord)
    (draws : ℕ → ℕ × ℕ × ℕ) : (mcOutcomes geo w e a draws).length = mcN := by
  simp [mcOutcomes]

/-- C7: in the Monte Carlo sampling loop of generate_stats, a draw whose
radicand `r1² − x'²` is negative is discarded without retry: the loop performs
exactly `N = 1000` iterations, the discarded draw is one of them (the four
outcome counts partition the `N` attempts), and such a draw contributes no
candidate location (the candidate list has exactly one point per
candidate-outcome iteration). -/
theorem radicand_discard_consumes_attempt (geo : Geo) (w : List Coord) (e : List ℚ)
    (a : Coord) (draws : ℕ → ℕ × ℕ × ℕ) :
    (mcOutcomes geo w e a draws).length = mcN ∧
    (predictedLocations geo w e a draws).length
      = (mcOutcomes geo w e a draws).countP isCandidate ∧
    (mcOutcomes geo w e a draws).countP isCandidate
        + (mcOutcomes geo w e a draws).countP isClose
        + (mcOutcomes geo w e a draws).countP isFar
        + (mcOutcomes geo w e a draws).countP isRad = mcN := by
  refine ⟨mcOutcomes_length geo w e a draws, ?_, ?_⟩
  · exact length_filterMap_getCandidate _
  · rw [countP_outcome_partition]
    exact mcOutcomes_length geo w e a draws

/-- C1 (amended): every draw of the Monte Carlo loop consumes one of the
`N = 1000` attempts; a draw discarded because `u ≤ 0.05` or because a predicted
radius exceeds 50 km therefore reduces the number of effective sampling
attempts (candidates plus radicand-discards) below `N` by exactly the number of
such discards.  The `i -= 1` before the far-radius `continue` has no effect on
the `range` iterator. -/
theorem mc_discards_consume_attempts (geo : Geo) (w : List Coord) (e : List ℚ)
    (a : Coord) (draws : ℕ → ℕ × ℕ × ℕ) :
    (mcOutcomes geo w e a draws).length = mcN ∧
    (mcOutcomes geo w e a draws).countP isCandidate
        + (mcOutcomes geo w e a draws).countP isRad
      = mcN - ((mcOutcomes geo w e a draws).countP isClose
               + (mcOutcomes geo w e a draws).countP isFar) := by
  have hpart := countP_outcome_partition (mcOutcomes geo w e a draws)
  have hlen := mcOutcomes_length geo w e a draws
  exact ⟨hlen, by omega⟩

/-- A geometry oracle on which every haversine distance is zero: the three
observation coordinates coincide, so every draw hits the `u ≤ 0.05` branch. -/
def geoZero : Geo := ⟨fun _ _ => 0, fun _ _ _ _ => 0, fun c _ _ => c, fun _ => 0⟩

/-- Three coincident observation coordinates. -/
def coordsZero : List Coord := [(0, 0), (0, 0), (0, 0)]

/-- Predicted radii for the degenerate scenario. -/
def radiiZero : List ℚ := [0, 0, 0]

/-- A random stream that always draws the indices (0, 1, 2). -/
def drawsZero : ℕ → ℕ × ℕ × ℕ := fun _ => (0, 1, 2)

theorem geoZero_step :
    mcStep geoZero coordsZero radiiZero (0, 0) (0, 1, 2) = DrawOutcome.discardClose := by
  norm_num [mcStep, geoZero]

theorem geoZero_outcomes :
    ∀ o ∈ mcOutcomes geoZero coordsZero radiiZero (0, 0) drawsZero,
      o = DrawOutcome.discardClose := by
  intro o ho
  rcases List.mem_map.mp ho with ⟨i, _, hi⟩
  rw [← hi]
  exact geoZero_step

/-- C1 counterexample: with three coincident observation coordinates every one
of the 1000 draws is discarded by the `u ≤ 0.05` filter, yet the loop still
performs exactly 1000 iterations and the number of effective sampling attempts
(candidates plus radicand-discards) is 0, not 1000: the discards are not
retried and do consume attempts. -/
theorem close_discard_not_retried_cex :
    (mcOutcomes geoZero coordsZero radiiZero (0, 0) drawsZero).length = mcN ∧
    (mcOutcomes geoZero coordsZero radiiZero (0, 0) drawsZero).countP isCandidate
        + (mcOutcomes geoZero coordsZero radiiZero (0, 0) drawsZero).countP isRad = 0 ∧
    (0 : ℕ) ≠ mcN := by
  refine ⟨mcOutcomes_length _ _ _ _ _, ?_, by decide⟩
  have h1 : (mcOutcomes geoZero coordsZero radiiZero (0, 0) drawsZero).countP isCandidate = 0 :=
    List.countP_eq_zero.mpr (fun o ho => by rw [geoZero_outcomes o ho]; decide)
  have h2 : (mcOutcomes geoZero coordsZero radiiZero (0, 0) drawsZero).countP isRad = 0 :=
    List.countP_eq_zero.mpr (fun o ho => by rw [geoZero_outcomes o ho]; decide)
  omega

/-- One row of the `gateway_inventory` table as selected by the sweep query:
`select address, location, gain, elevation from gateway_inventory order by
last_block desc` (nullable columns are `Option`). -/
structure InvRow where
  address : String
  location : Option String
  gain : Option ℚ
  elevation : Option ℚ
  last_block : ℕ
deriving DecidableEq

/-- `dropna` keeps the rows whose location, gain and elevation are all
non-null (after `set_index` the address is the index and not a column). -/
def isCompleteRow (r : InvRow) : Bool :=
  r.location.isSome && r.gain.isSome && r.elevation.isSome

/-- The `order by last_block desc` of the inventory query. -/
def invSortDesc (t : List InvRow) : List InvRow :=
  t.mergeSort (fun r s => decide (s.last_block ≤ r.last_block))

/-- The gateway-inventory read at the top of each sweep
(batch_processing.py lines 235-239): the ordered query followed by
`set_index("address").dropna()`.  The derived columns added afterwards
(asserted_location, asserted_hex_res8) do not change the set of rows. -/
def loadGatewayInventory (t : List InvRow) : List InvRow :=
  (invSortDesc t).filter isCompleteRow

theorem countP_loadGatewayInventory (t : List InvRow) (p : InvRow → Bool) :
    (loadGatewayInventory t).countP p
      = t.countP (fun r => p r && isCompleteRow r) := by
  unfold loadGatewayInventory invSortDesc
  rw [List.countP_filter]
  exact (List.mergeSort_perm t _).countP_eq _

/-- C2 (amended): the inventory read drops rows with missing location, gain or
elevation and returns the rows ordered by descending last-seen block, but it
performs no per-address deduplication: for every address the returned table
contains exactly as many rows as the raw table has complete rows for that
address, which can exceed one. -/
theorem loadGatewayInventory_rows (t : List InvRow) (a : String) :
    (loadGatewayInventory t).countP (fun r => r.address == a)
        = t.countP (fun r => (r.address == a) && isCompleteRow r) ∧
    List.Sorted (fun r s : InvRow => s.last_block ≤ r.last_block)
      (loadGatewayInventory t) := by
  refine ⟨countP_loadGatewayInventory t _, ?_⟩
  have hsorted : (invSortDesc t).Pairwise
      (fun r s : InvRow => s.last_block ≤ r.last_block) := by
    have h := @List.sorted_mergeSort InvRow
      (fun r s : InvRow => decide (s.last_block ≤ r.last_block))
      (fun a b c hab hbc => by
        simp only [decide_eq_true_eq] at hab hbc ⊢
        omega)
      (fun a b => by
        simp only [Bool.or_eq_true, decide_eq_true_eq]
        omega)
      t
    exact h.imp (fun hab => by simpa using hab)
  exact hsorted.sublist (List.filter_sublist _)

/-- A concrete inventory table holding two complete rows for the same
address "a", with last-seen blocks 10 and 5. -/
def invTableDup : List InvRow :=
  [⟨"a", some "loc1", some 1, some 2, 10⟩, ⟨"a", some "loc2", some 1, some 2, 5⟩]

/-- C2 counterexample: on `invTableDup` the inventory read returns two rows
for address "a" — duplicates are not reduced to the most recent row, so an
address does not have at most one current location row. -/
theorem gateway_inventory_duplicate_address_cex :
    (loadGatewayInventory invTableDup).countP (fun r => r.address == "a") = 2 ∧
    ¬((loadGatewayInventory invTableDup).countP (fun r => r.address == "a") ≤ 1) := by
  have h := countP_loadGatewayInventory invTableDup (fun r => r.address == "a")
  rw [h]
  refine ⟨?_, ?_⟩ <;> decide

section Upsert

variable {Row : Type}

/-- The query in `upsert_predictions`: the addresses of the results table
that occur among the candidate keys
(`query(TopographyResults.address).filter(address.in_(result_rows.keys()))`).
The results table is modelled as an association list from address to row. -/
def foundAddresses (db rows : List (String × Row)) : List String :=
  (db.map Prod.fst).filter (fun a => decide (a ∈ rows.map Prod.fst))

/-- The loop `for each in ...: result_rows.pop(each.address)`: each found
address is popped from the candidate mapping in turn. -/
def popAll (rows : List (String × Row)) (found : List String) : List (String × Row) :=
  found.foldl (fun acc a => acc.filter (fun p => p.1 != a)) rows

/-- `upsert_predictions` (batch_processing.py lines 168-177): pops the
already-present addresses from `result_rows`, bulk-inserts the remaining
entries (`entries_to_put`) and commits.  Returns the results table after the
commit together with the mapping as the caller sees it after the call. -/
def upsertPredictions (db rows : List (String × Row)) :
    List (String × Row) × List (String × Row) :=
  (db ++ popAll rows (foundAddresses db rows), popAll rows (foundAddresses db rows))

/-- Whether `session.commit()` raises `sqlalchemy.exc.OperationalError`. -/
inductive CommitOutcome where
  | success
  | operationalError

/-- `upsert_predictions` including the `try/except` around `commit`: on an
operational error the session is rolled back (the staged bulk insert is
discarded, the table is unchanged) and nothing is re-raised, so the result is
always `Except.ok`. -/
def upsertPredictionsRun (commit : CommitOutcome) (db rows : List (String × Row)) :
    Except Unit (List (String × Row) × List (String × Row)) :=
  match commit with
  | CommitOutcome.success =>
      Except.ok (db ++ popAll rows (foundAddresses db rows),
        popAll rows (foundAddresses db rows))
  | CommitOutcome.operationalError =>
      Except.ok (db, popAll rows (foundAddresses db rows))

theorem mem_popAll (rows : List (String × Row)) (found : List String)
    (p : String × Row) :
    p ∈ popAll rows found ↔ p ∈ rows ∧ p.1 ∉ found := by
  induction found generalizing rows with
  | nil => simp [popAll]
  | cons a t ih =>
    have hstep : popAll rows (a :: t) = popAll (rows.filter (fun q => q.1 != a)) t := rfl
    rw [hstep, ih]
    simp only [List.mem_filter, bne_iff_ne, List.mem_cons, not_or]
    constructor
    · rintro ⟨⟨h1, h2⟩, h3⟩
      exact ⟨h1, h2, h3⟩
    · rintro ⟨h1, h2, h3⟩
      exact ⟨⟨h1, h2⟩, h3⟩

theorem mem_upsert_remaining (db rows : List (String × Row)) (p : String × Row) :
    p ∈ (upsertPredictions db rows).2 ↔ p ∈ rows ∧ p.1 ∉ db.map Prod.fst := by
  have hkey : p ∈ rows → p.1 ∈ rows.map Prod.fst := fun h => List.mem_map_of_mem Prod.fst h
  show p ∈ popAll rows (foundAddresses db rows) ↔ _
  rw [mem_popAll]
  unfold foundAddresses
  simp only [List.mem_filter, decide_eq_true_eq, not_and]
  constructor
  · rintro ⟨h1, h2⟩
    exact ⟨h1, fun hin => absurd (hkey h1) (h2 hin)⟩
  · rintro ⟨h1, h2⟩
    exact ⟨h1, fun hin => absurd hin h2⟩

/-- C3: `upsert_predictions` is insert-only and idempotent: the table after
the call is the old table with the inserted entries appended (existing rows
are never updated), every inserted entry comes from the candidate mapping and
has an address not already present, and a second call with the same candidate
mapping inserts nothing and leaves the table unchanged. -/
theorem upsertPredictions_insert_only_idempotent (db rows : List (String × Row)) :
    (upsertPredictions db rows).1 = db ++ (upsertPredictions db rows).2 ∧
    (∀ p ∈ db, p ∈ (upsertPredictions db rows).1) ∧
    (∀ p ∈ (upsertPredictions db rows).2, p ∈ rows ∧ p.1 ∉ db.map Prod.fst) ∧
    (upsertPredictions (upsertPredictions db rows).1 rows).2 = [] ∧
    (upsertPredictions (upsertPredictions db rows).1 rows).1
      = (upsertPredictions db rows).1 := by
  have hsecond : (upsertPredictions (upsertPredictions db rows).1 rows).2 = [] := by
    rw [List.eq_nil_iff_forall_not_mem]
    intro p hp
    rcases (mem_upsert_remaining _ rows p).mp hp with ⟨hrows, hnot⟩
    apply hnot
    show p.1 ∈ ((db ++ popAll rows (foundAddresses db rows)).map Prod.fst)
    rw [List.map_append, List.mem_append]
    by_cases hdb : p.1 ∈ db.map Prod.fst
    · exact Or.inl hdb
    · refine Or.inr ?_
      have hmem : p ∈ popAll rows (foundAddresses db rows) :=
        (mem_upsert_remaining db rows p).mpr ⟨hrows, hdb⟩
      exact List.mem_map_of_mem Prod.fst hmem
  refine ⟨rfl, ?_, ?_, hsecond, ?_⟩
  · intro p hp
    exact List.mem_append_left _ hp
  · intro p hp
    exact (mem_upsert_remaining db rows p).mp hp
  · show (upsertPredictions db rows).1
        ++ (upsertPredictions (upsertPredictions db rows).1 rows).2
        = (upsertPredictions db rows).1
    rw [hsecond, List.append_nil]

/-- C3 witness at a concrete table and mapping. -/
theorem upsertPredictions_insert_only_idempotent_witness :
    (upsertPredictions [("a", 1)] [("a", 2), ("b", 3)]).1
        = [("a", 1)] ++ (upsertPredictions [("a", 1)] [("a", 2), ("b", 3)]).2 ∧
    (∀ p ∈ [("a", 1)], p ∈ (upsertPredictions [("a", 1)] [("a", 2), ("b", 3)]).1) ∧
    (∀ p ∈ (upsertPredictions [("a", 1)] [("a", 2), ("b", 3)]).2,
      p ∈ [("a", 2), ("b", 3)] ∧ p.1 ∉ [("a", 1)].map Prod.fst) ∧
    (upsertPredictions (upsertPredictions [("a", 1)] [("a", 2), ("b", 3)]).1
      [("a", 2), ("b", 3)]).2 = [] ∧
    (upsertPredictions (upsertPredictions [("a", 1)] [("a", 2), ("b", 3)]).1
        [("a", 2), ("b", 3)]).1
      = (upsertPredictions [("a", 1)] [("a", 2), ("b", 3)]).1 :=
  upsertPredictions_insert_only_idempotent [("a", (1 : ℕ))] [("a", 2), ("b", 3)]

/-- C8: on a database-operational error raised during commit the transaction
is rolled back (the results table is unchanged) and no error is re-raised to
the caller (the run always returns `ok`); on a successful commit the staged
rows are persisted. -/
theorem upsertPredictionsRun_commit_error (commit : CommitOutcome)
    (db rows : List (String × Row)) :
    (upsertPredictionsRun commit db rows).isOk = true ∧
    upsertPredictionsRun CommitOutcome.operationalError db rows
      = Except.ok (db, popAll rows (foundAddresses db rows)) ∧
    upsertPredictionsRun CommitOutcome.success db rows
      = Except.ok (upsertPredictions db rows) := by
  refine ⟨?_, rfl, rfl⟩
  cases commit <;> rfl

/-- C10: `upsert_predictions` mutates `result_rows` in place: after the call
the caller's mapping holds exactly the entries that were submitted for
insertion — an entry survives precisely when its address was not already
present in the results table, every already-present address having been
popped. -/
theorem upsertPredictions_mutates_result_rows (db rows : List (String × Row)) :
    (upsertPredictions db rows).2 = popAll rows (foundAddresses db rows) ∧
    (∀ p, p ∈ (upsertPredictions db rows).2 ↔ p ∈ rows ∧ p.1 ∉ db.map Prod.fst) ∧
    (∀ a ∈ foundAddresses db rows, ∀ r : Row, (a, r) ∉ (upsertPredictions db rows).2) := by
  refine ⟨rfl, fun p => mem_upsert_remaining db rows p, ?_⟩
  intro a ha r hmem
  rcases (mem_popAll rows (foundAddresses db rows) (a, r)).mp hmem with ⟨_, hnot⟩
  exact hnot ha

/-- C10 witness at a concrete table and mapping. -/
theorem upsertPredictions_mutates_result_rows_witness :
    (upsertPredictions [("a", 1)] [("a", 2), ("b", 3)]).2
        = popAll [("a", 2), ("b", 3)] (foundAddresses [("a", 1)] [("a", 2), ("b", 3)]) ∧
    (∀ p, p ∈ (upsertPredictions [("a", 1)] [("a", 2), ("b", 3)]).2
      ↔ p ∈ [("a", 2), ("b", 3)] ∧ p.1 ∉ [("a", 1)].map Prod.fst) ∧
    (∀ a ∈ foundAddresses [("a", 1)] [("a", 2), ("b", 3)], ∀ r : ℕ,
      (a, r) ∉ (upsertPredictions [("a", 1)] [("a", 2), ("b", 3)]).2) :=
  upsertPredictions_mutates_result_rows [("a", (1 : ℕ))] [("a", 2), ("b", 3)]

end Upsert

/-- An edge row as consumed by `map_topo_features`: total distance in meters,
transmitter coordinate and bearing. -/
structure Edge where
  distance_m : ℚ
  transmitter_coords : Coord
  bearing : ℚ

/-- The nine topographic descriptors; `Option` models the `np.nan` sentinel
(absent) versus a computed value. -/
structure TopoFeatures where
  ra : Option ℚ
  rq : Option ℚ
  rp : Option ℚ
  rv : Option ℚ
  rz : Option ℚ
  rsk : Option ℚ
  rku : Option ℚ
  deepest_barrier : Option ℚ
  n_barriers : Option ℚ
deriving DecidableEq

/-- The all-nan dictionary returned by the `except` branch. -/
def allAbsentFeatures : TopoFeatures :=
  ⟨none, none, none, none, none, none, none, none, none⟩

/-- Nine computed descriptors packed into the feature vector. -/
def featuresOfTuple (t : ℚ × ℚ × ℚ × ℚ × ℚ × ℚ × ℚ × ℚ × ℚ) : TopoFeatures :=
  ⟨some t.1, some t.2.1, some t.2.2.1, some t.2.2.2.1, some t.2.2.2.2.1,
    some t.2.2.2.2.2.1, some t.2.2.2.2.2.2.1, some t.2.2.2.2.2.2.2.1,
    some t.2.2.2.2.2.2.2.2⟩

/-- External and out-of-src operations used inside the `try` block of
`map_topo_features`.  `invHav` is the library inverse-haversine projection;
`sample` is the rasterio point sample, which can fail (out-of-bounds query,
dataset error).  Modelled from the spec: `level_profile` and
`extract_topographic_features` are defined in `feature_extraction.py`, which
is not under src/; per spec section 4.4 and section 3 they derive the leveled
profile and the nine descriptors and can fail on degenerate input, so they are
modelled as fallible oracles returning either a value or an error. -/
structure TerrainEnv where
  invHav : Coord → ℚ → ℚ → Coord
  sample : Coord → Except Unit ℚ
  levelProfile : List ℚ → List ℚ → Except Unit (List ℚ)
  extract : List ℚ → List ℚ → Except Unit (ℚ × ℚ × ℚ × ℚ × ℚ × ℚ × ℚ × ℚ × ℚ)

/-- `np.arange 0 stop step`: the values `k * step` for `0 ≤ k`, `k * step < stop`,
i.e. `⌈stop/step⌉` of them (empty when `stop ≤ 0`). -/
def arange (stop step : ℚ) : List ℚ :=
  (List.range (Int.toNat ⌈stop / step⌉)).map (fun k => (k : ℚ) * step)

/-- The body of the `try` block of `map_topo_features`: build the distance
vector at 0.3 km increments, project each sample point from the transmitter
along the bearing (the code swaps the pair to lon/lat for the raster query),
sample the elevation profile, level it and extract the nine descriptors. -/
def topoPipeline (env : TerrainEnv) (x : Edge) :
    Except Unit (ℚ × ℚ × ℚ × ℚ × ℚ × ℚ × ℚ × ℚ × ℚ) :=
  let dVec := arange (x.distance_m / 1000) 0.3
  let indexList := dVec.map (fun d =>
    let c := env.invHav x.transmitter_coords d x.bearing
    (c.2, c.1))
  (indexList.mapM env.sample).bind (fun elevationProfile =>
    (env.levelProfile dVec elevationProfile).bind (fun leveled =>
      env.extract dVec leveled))

/-- `map_topo_features` (batch_processing.py lines 54-80): the pipeline under
a bare `except:` that converts any failure into the all-nan vector. -/
def mapTopoFeatures (env : TerrainEnv) (x : Edge) : TopoFeatures :=
  match topoPipeline env x with
  | Except.ok t => featuresOfTuple t
  | Except.error _ => allAbsentFeatures

/-- C4: `map_topo_features` never raises and never returns a partial result:
for every input it returns either the vector with all nine descriptors
present, or the vector with all nine simultaneously absent. -/
theorem mapTopoFeatures_all_or_nothing (env : TerrainEnv) (x : Edge) :
    mapTopoFeatures env x = allAbsentFeatures ∨
    ((mapTopoFeatures env x).ra.isSome ∧ (mapTopoFeatures env x).rq.isSome ∧
      (mapTopoFeatures env x).rp.isSome ∧ (mapTopoFeatures env x).rv.isSome ∧
      (mapTopoFeatures env x).rz.isSome ∧ (mapTopoFeatures env x).rsk.isSome ∧
      (mapTopoFeatures env x).rku.isSome ∧
      (mapTopoFeatures env x).deepest_barrier.isSome ∧
      (mapTopoFeatures env x).n_barriers.isSome) := by
  unfold mapTopoFeatures
  cases h : topoPipeline env x with
  | ok t => right; simp [featuresOfTuple]
  | error e => left; rfl

/-- The distance-band restriction applied in the orchestration loop
(batch_processing.py line 262) together with the equivalent per-edge recheck
inside the raster loop (line 267): only edges with
`50 < distance_m < 50000` proceed to feature extraction. -/
def distanceBand (edges : List ℚ) : List ℚ :=
  edges.filter (fun d => decide (d > 50) && decide (d < 50000))

def edgeLoopPass (edges : List ℚ) : List ℚ :=
  (distanceBand edges).filter (fun d => !(decide (d > 50000) || decide (d < 50)))

/-- C6: an edge proceeds to terrain feature extraction iff its distance lies
strictly between 50 and 50000 meters; on the synthetic distance set
{10, 60, 25000, 60000} exactly the edges at 60 m and 25000 m proceed. -/
theorem distance_band_filter_spec :
    (∀ (edges : List ℚ) (d : ℚ),
      d ∈ edgeLoopPass edges ↔ d ∈ edges ∧ 50 < d ∧ d < 50000) ∧
    edgeLoopPass [10, 60, 25000, 60000] = [60, 25000] := by
  constructor
  · intro edges d
    simp only [edgeLoopPass, distanceBand, List.mem_filter, Bool.not_eq_true',
      Bool.or_eq_false_iff, Bool.and_eq_true, decide_eq_true_eq, decide_eq_false_iff_not,
      not_lt, gt_iff_lt]
    constructor
    · rintro ⟨⟨h1, h2, h3⟩, _⟩
      exact ⟨h1, h2, h3⟩
    · rintro ⟨h1, h2, h3⟩
      exact ⟨⟨h1, h2, h3⟩, le_of_lt h3, le_of_lt h2⟩
  · norm_num [edgeLoopPass, distanceBand]

/-- C6 witness: the general band characterization applied at the concrete
distance 60 of the synthetic edge set. -/
theorem distance_band_filter_spec_witness :
    (60 : ℚ) ∈ edgeLoopPass [10, 60, 25000, 60000] ↔
      (60 : ℚ) ∈ ([10, 60, 25000, 60000] : List ℚ) ∧
        (50 : ℚ) < 60 ∧ (60 : ℚ) < 50000 :=
  distance_band_filter_spec.1 [10, 60, 25000, 60000] 60

/-- Round to the nearest integer, ties to even — the rounding mode of
`np.round`. -/
def rne (q : ℚ) : ℤ :=
  if q - ⌊q⌋ = 1/2 then (if Even ⌊q⌋ then ⌊q⌋ else ⌊q⌋ + 1) else round q

theorem rne_bounds (q : ℚ) : ⌊q⌋ ≤ rne q ∧ rne q ≤ ⌈q⌉ := by
  unfold rne
  by_cases h : q - ⌊q⌋ = 1/2
  · rw [if_pos h]
    have hlt : (⌊q⌋ : ℚ) < q := by linarith
    have hlc : ⌊q⌋ < ⌈q⌉ := by
      have hq : q ≤ (⌈q⌉ : ℚ) := Int.le_ceil q
      exact_mod_cast lt_of_lt_of_le hlt hq
    by_cases he : Even ⌊q⌋
    · rw [if_pos he]; omega
    · rw [if_neg he]; omega
  · rw [if_neg h]
    constructor
    · rw [round_eq]
      exact Int.floor_le_floor (by linarith)
    · rw [round_eq]
      have h1 : q + 1/2 ≤ (⌈q⌉ : ℚ) + 1/2 := by linarith [Int.le_ceil q]
      have h2 : ⌊q + 1/2⌋ ≤ ⌊(⌈q⌉ : ℚ) + 1/2⌋ := Int.floor_le_floor h1
      have h3 : ⌊(⌈q⌉ : ℚ) + 1/2⌋ = ⌈q⌉ := by
        rw [Int.floor_int_add]
        have h12 : ⌊(1/2 : ℚ)⌋ = 0 := by
          norm_num [Int.floor_eq_zero_iff, Set.mem_Ico]
        omega
      omega

/-- `np.round(100 * pts_in_hex / n_points, 1)` scaled by 10: the rounded
number of tenths of a percent. -/
def percentRounded (ptsInHex nPoints : ℕ) : ℤ :=
  rne (10 * (100 * (ptsInHex : ℚ) / (nPoints : ℚ)))

/-- The numeric value of the containment percentage (0 when no candidate was
generated, matching the textual "0" fallback). -/
def percentVal (ptsInHex nPoints : ℕ) : ℚ :=
  if nPoints = 0 then 0 else (percentRounded ptsInHex nPoints : ℚ) / 10

/-- `p = str(np.round(100 * pts_in_hex / n_points, 1))` with the `except`
branch: on `n_points = 0` the integer division raises `ZeroDivisionError` and
the bare `except` yields the text "0"; otherwise the one-decimal float prints
as integer part, dot, tenths digit. -/
def percentText (ptsInHex nPoints : ℕ) : String :=
  if nPoints = 0 then "0"
  else toString (percentRounded ptsInHex nPoints / 10) ++ "."
    ++ toString (percentRounded ptsInHex nPoints % 10)

theorem percentVal_bounds (pts n : ℕ) (h : pts ≤ n) :
    0 ≤ percentVal pts n ∧ percentVal pts n ≤ 100 := by
  unfold percentVal
  by_cases hn : n = 0
  · rw [if_pos hn]
    norm_num
  · rw [if_neg hn]
    have hn0 : (0:ℚ) < n := by exact_mod_cast Nat.pos_of_ne_zero hn
    unfold percentRounded
    set q := 100 * (pts:ℚ) / (n:ℚ) with hq
    have hq0 : 0 ≤ q := by positivity
    have hq100 : q ≤ 100 := by
      rw [hq, div_le_iff₀ hn0]
      have hpn : (pts:ℚ) ≤ (n:ℚ) := by exact_mod_cast h
      nlinarith
    have hb := rne_bounds (10 * q)
    have hfl : (0:ℤ) ≤ ⌊10 * q⌋ := Int.floor_nonneg.mpr (by positivity)
    have hcl : ⌈10 * q⌉ ≤ 1000 := Int.ceil_le.mpr (by push_cast; linarith)
    constructor
    · have hnn : (0:ℤ) ≤ rne (10 * q) := le_trans hfl hb.1
      have hnn2 : (0:ℚ) ≤ (rne (10 * q) : ℚ) := by exact_mod_cast hnn
      have h10 : (0:ℚ) ≤ 10 := by norm_num
      exact div_nonneg hnn2 h10
    · have h1000 : rne (10 * q) ≤ 1000 := le_trans hb.2 hcl
      rw [div_le_iff₀ (by norm_num : (0:ℚ) < 10)]
      have hc : (rne (10 * q) : ℚ) ≤ 1000 := by exact_mod_cast h1000
      linarith

/-- `np.median`: sort, take the middle element (odd length) or the mean of
the two middle elements (even length).  The median of an empty array is nan
(a RuntimeWarning the script suppresses); nan is modelled as 0 here — no
claim depends on that value. -/
def medianQ (l : List ℚ) : ℚ :=
  let s := l.mergeSort (fun a b => decide (a ≤ b))
  if l.length = 0 then 0
  else if l.length % 2 = 1 then s.getD (l.length / 2) 0
  else (s.getD (l.length / 2 - 1) 0 + s.getD (l.length / 2) 0) / 2

/-- One row of `details_df`: transmitter address, witness address and
transmitter coordinates (built in the orchestration loop), plus the isolation
forest score column `outliers` added before `generate_stats` is called. -/
structure DetailRow where
  transmitter_address : String
  witness_address : String
  transmitter_coords : Coord
  outliers : ℚ
deriving DecidableEq

/-- One result row of `generate_stats` (plus the block column the caller
appends before `to_dict`). -/
structure ResultRow where
  address : String
  percent_predictions_within_5_res8_krings : String
  prediction_error_km : ℚ
  n_outliers : ℕ
  n_beaconers_heard : ℕ
  block : ℕ
deriving DecidableEq

/-- External oracles used by `generate_stats`: the geometry library, the h3
k-ring and geo-to-h3 functions, and the per-hotspot random permutation
stream (first three indices of `np.random.permutation`). -/
structure StatsEnv where
  geo : Geo
  kRing : String → ℕ → List String
  geoToH3 : Coord → ℕ → String
  draws : String → ℕ → ℕ × ℕ × ℕ

/-- `witness_coords = list(details_df["transmitter_coords"][details_df
["witness_address"] == hotspot])`. -/
def witnessCoordsOf (details : List DetailRow) (hotspot : String) : List Coord :=
  (details.filter (fun d => d.witness_address == hotspot)).map
    (fun d => d.transmitter_coords)

/-- The per-hotspot body of `generate_stats` (batch_processing.py lines
89-157): skip when fewer than three observation coordinates, otherwise run
the Monte Carlo loop and assemble the result row. -/
def statsRow (env : StatsEnv) (details : List DetailRow)
    (gwLoc : String → Coord × String) (evalMean : List ℚ) (currentHeight : ℕ)
    (hotspot : String) : Option ResultRow :=
  let witnessCoords := witnessCoordsOf details hotspot
  if witnessCoords.length < 3 then none
  else
    let assertedLocation := (gwLoc hotspot).1
    let assertedHexRes8 := (gwLoc hotspot).2
    let preds := predictedLocations env.geo witnessCoords evalMean assertedLocation
      (env.draws hotspot)
    let rings := env.kRing assertedHexRes8 5
    let nPoints := preds.length
    let ptsInHex := preds.countP (fun c => decide (env.geoToH3 c 8 ∈ rings))
    some ⟨hotspot,
      percentText ptsInHex nPoints,
      env.geo.hav assertedLocation
        (medianQ (preds.map Prod.fst), medianQ (preds.map Prod.snd)),
      (details.filter
        (fun d => d.witness_address == hotspot && decide (d.outliers < 0))).length,
      (details.filter (fun d => d.witness_address == hotspot)).length,
      currentHeight⟩

/-- `generate_stats`: iterate over the distinct witness addresses of
`details_df` and collect the result rows (the caller then keys them by
address; `set` iteration order is irrelevant to the properties below). -/
def generateStats (env : StatsEnv) (details : List DetailRow)
    (gwLoc : String → Coord × String) (evalMean : List ℚ) (currentHeight : ℕ) :
    List ResultRow :=
  ((details.map (fun d => d.witness_address)).dedup).filterMap
    (statsRow env details gwLoc evalMean currentHeight)

theorem witnessCoordsOf_length (details : List DetailRow) (hotspot : String) :
    (witnessCoordsOf details hotspot).length
      = (details.filter (fun d => d.witness_address == hotspot)).length :=
  List.length_map _ _

theorem statsRow_some (env : StatsEnv) (details : List DetailRow)
    (gwLoc : String → Coord × String) (evalMean : List ℚ) (currentHeight : ℕ)
    (hotspot : String) (row : ResultRow)
    (hsome : statsRow env details gwLoc evalMean currentHeight hotspot = some row) :
    row.address = hotspot ∧
      3 ≤ (details.filter (fun d => d.witness_address == hotspot)).length := by
  unfold statsRow at hsome
  by_cases hlen : (witnessCoordsOf details hotspot).length < 3
  · rw [if_pos hlen] at hsome
    exact absurd hsome (by simp)
  · rw [if_neg hlen] at hsome
    have haddr : row.address = hotspot := by
      have := Option.some.inj hsome
      rw [← this]
    rw [witnessCoordsOf_length] at hlen
    exact ⟨haddr, not_lt.mp hlen⟩

theorem statsRow_of_three (env : StatsEnv) (details : List DetailRow)
    (gwLoc : String → Coord × String) (evalMean : List ℚ) (currentHeight : ℕ)
    (hotspot : String)
    (hlen : 3 ≤ (details.filter (fun d => d.witness_address == hotspot)).length) :
    ∃ row, statsRow env details gwLoc evalMean currentHeight hotspot = some row ∧
      row.address = hotspot := by
  have hnot : ¬((witnessCoordsOf details hotspot).length < 3) := by
    rw [witnessCoordsOf_length]
    omega
  cases hs : statsRow env details gwLoc evalMean currentHeight hotspot with
  | none =>
    exfalso
    unfold statsRow at hs
    rw [if_neg hnot] at hs
    exact absurd hs (by simp)
  | some row =>
    exact ⟨row, rfl,
      (statsRow_some env details gwLoc evalMean currentHeight hotspot row hs).1⟩

/-- C5: a witness address contributes a row to the output of
`generate_stats` iff it occurs in the detail rows and has at least three
recorded transmitter coordinates there; in particular an address with exactly
2 coordinates is excluded and one with exactly 3 is included. -/
theorem generateStats_min_three_coords (env : StatsEnv) (details : List DetailRow)
    (gwLoc : String → Coord × String) (evalMean : List ℚ) (currentHeight : ℕ)
    (addr : String) :
    (∃ row ∈ generateStats env details gwLoc evalMean currentHeight,
        row.address = addr) ↔
      (addr ∈ details.map (fun d => d.witness_address) ∧
        3 ≤ (details.filter (fun d => d.witness_address == addr)).length) := by
  constructor
  · rintro ⟨row, hrow, haddr⟩
    rcases List.mem_filterMap.mp hrow with ⟨h, hdedup, hf⟩
    rcases statsRow_some env details gwLoc evalMean currentHeight h row hf with ⟨h1, h2⟩
    have hh : h = addr := by rw [← haddr, h1]
    rw [hh] at hdedup h2
    exact ⟨List.mem_dedup.mp hdedup, h2⟩
  · rintro ⟨hmem, hlen⟩
    rcases statsRow_of_three env details gwLoc evalMean currentHeight addr hlen with
      ⟨row, hsome, haddr⟩
    exact ⟨row, List.mem_filterMap.mpr ⟨addr, List.mem_dedup.mpr hmem, hsome⟩, haddr⟩

/-- C9: every row emitted by `generate_stats` carries a containment
percentage rendered from a pair `pts ≤ n` (hexes inside the 5-ring over total
candidates); its numeric value lies in [0, 100], and when no candidate was
generated (`n = 0`) the stored text is exactly "0". -/
theorem generateStats_percent_bounds (env : StatsEnv) (details : List DetailRow)
    (gwLoc : String → Coord × String) (evalMean : List ℚ) (currentHeight : ℕ)
    (row : ResultRow)
    (hrow : row ∈ generateStats env details gwLoc evalMean currentHeight) :
    ∃ pts n : ℕ, pts ≤ n ∧
      row.percent_predictions_within_5_res8_krings = percentText pts n ∧
      0 ≤ percentVal pts n ∧ percentVal pts n ≤ 100 ∧
      (n = 0 → row.percent_predictions_within_5_res8_krings = "0") := by
  rcases List.mem_filterMap.mp hrow with ⟨h, _, hf⟩
  unfold statsRow at hf
  by_cases hlen : (witnessCoordsOf details h).length < 3
  · rw [if_pos hlen] at hf
    exact absurd hf (by simp)
  · rw [if_neg hlen] at hf
    obtain ⟨ra, rp, re, ro, rb, rh⟩ := row
    simp only [Option.some.injEq, ResultRow.mk.injEq] at hf
    refine ⟨_, _, List.countP_le_length _, hf.2.1.symm, ?_, ?_, ?_⟩
    · exact (percentVal_bounds _ _ (List.countP_le_length _)).1
    · exact (percentVal_bounds _ _ (List.countP_le_length _)).2
    · intro hn
      show rp = "0"
      rw [← hf.2.1, hn]
      rfl

/-- Candidate extraction over the degenerate scenario yields no points:
every draw is discarded by the closeness filter. -/
theorem geoZero_preds :
    predictedLocations geoZero coordsZero radiiZero (0, 0) drawsZero = [] := by
  unfold predictedLocations
  rw [List.filterMap_eq_nil_iff]
  intro o ho
  rw [geoZero_outcomes o ho]
  rfl

/-- A concrete stats environment built on the degenerate geometry oracle. -/
def envZero : StatsEnv := ⟨geoZero, fun _ _ => [], fun _ _ => "h", fun _ => drawsZero⟩

/-- A concrete gateway lookup. -/
def gwZero : String → Coord × String := fun _ => ((0, 0), "hex")

/-- Three detail rows for witness "w", all with coincident transmitter
coordinates and inlier scores. -/
def detailsZero : List DetailRow :=
  [⟨"t1", "w", (0, 0), 0⟩, ⟨"t2", "w", (0, 0), 0⟩, ⟨"t3", "w", (0, 0), 0⟩]

/-- The single result row generate_stats produces on the degenerate scenario. -/
def rowZero : ResultRow := ⟨"w", "0", 0, 0, 3, 7⟩

theorem geoZero_hav (a b : Coord) : geoZero.hav a b = 0 := rfl

set_option maxRecDepth 4000 in
theorem statsRowZero :
    statsRow envZero detailsZero gwZero radiiZero 7 "w" = some rowZero := by
  have hwc : witnessCoordsOf detailsZero "w" = coordsZero := by decide
  have hlen : ¬(coordsZero.length < 3) := by decide
  have houtl : (detailsZero.filter
      (fun d => d.witness_address == "w" && decide (d.outliers < 0))).length = 0 := by decide
  have hbeac : (detailsZero.filter (fun d => d.witness_address == "w")).length = 3 := by decide
  simp only [statsRow, hwc, hlen, houtl, hbeac, envZero, gwZero, geoZero_preds,
    geoZero_hav, if_false, List.countP_nil, List.length_nil, List.map_nil, medianQ,
    percentText, rowZero]
  norm_num

theorem generateStatsZero :
    generateStats envZero detailsZero gwZero radiiZero 7 = [rowZero] := by
  have hdedup : (detailsZero.map (fun d => d.witness_address)).dedup = ["w"] := by decide
  unfold generateStats
  rw [hdedup]
  simp [statsRowZero]

/-- C5 witness: the characterization instantiated at the concrete detail set
with exactly three recorded transmitter coordinates for witness "w". -/
theorem generateStats_min_three_coords_witness :
    (∃ row ∈ generateStats envZero detailsZero gwZero radiiZero 7,
        row.address = "w") ↔
      ("w" ∈ detailsZero.map (fun d => d.witness_address) ∧
        3 ≤ (detailsZero.filter (fun d => d.witness_address == "w")).length) :=
  generateStats_min_three_coords envZero detailsZero gwZero radiiZero 7 "w"

/-- C9 witness: the percent property applied to the concrete row emitted on
the degenerate scenario, where zero candidates are generated and the stored
text is "0". -/
theorem generateStats_percent_bounds_witness :
    ∃ pts n : ℕ, pts ≤ n ∧
      rowZero.percent_predictions_within_5_res8_krings = percentText pts n ∧
      0 ≤ percentVal pts n ∧ percentVal pts n ≤ 100 ∧
      (n = 0 → rowZero.percent_predictions_within_5_res8_krings = "0") :=
  generateStats_percent_bounds envZero detailsZero gwZero radiiZero 7 rowZero
    (by rw [generateStatsZero]; exact List.mem_singleton.mpr rfl)

end BatchProcessing
